import Mathlib

/-!
Shallow embedding of the product-moderation core of the django-react-ecommerce
backend (`backend/apps/products/views.py`, `models.py`, `permissions.py`,
`backend/apps/users/models.py`), together with theorems settling the claims
about its specification.

Conventions of the embedding:
* Django model rows become Lean structures; the images of one product are kept
  as a `List ProductImage` in row order of the `product_images` table
  (insertion order); queries that rely on `ProductImage.Meta.ordering`
  (`['-is_primary', 'order', 'created_at']`) sort this list explicitly.
* Each view function becomes a pure function from the authenticated caller and
  the affected rows to `Except ApiError Product`; `.error` corresponds to an
  error `Response` returned before any `save()` call on the product — the view
  code only mutates rows on its success path — so the database state after a
  request is `afterOp result product`.
* Timestamps and primary keys are abstract `Nat` values supplied by the
  caller of the model (`now`, `newId`); Django's `AutoField` guarantees
  freshness of `newId`, which appears as an explicit hypothesis where needed.
* `DecimalField` prices are modelled as `Rat`, `PositiveIntegerField` counters
  as `Nat`.  `Product.stock` is modelled as `Int` so that the source's
  `stock < 0` check remains meaningful.
-/

namespace ECommerce

/-- Model of `User.ROLE_CHOICES` from `apps/users/models.py`. -/
inductive Role where
  | admin
  | vendor
  | customer
deriving DecidableEq, Repr

/-- The fields of `apps.users.models.User` (plus Django's built-in `is_staff`,
`is_superuser`, `is_active` flags from `AbstractUser`) that the product views
consult.  Callers of the operations below are assumed authenticated
(`permissions.IsAuthenticated` has already passed). -/
structure User where
  id : Nat
  role : Role
  is_active : Bool
  is_staff : Bool
  is_superuser : Bool
  is_verified_vendor : Bool
deriving DecidableEq, Repr

/-- Property `User.is_admin`: `role == 'admin' or is_superuser`. -/
def User.is_admin (u : User) : Bool :=
  u.role == Role.admin || u.is_superuser

/-- Property `User.is_vendor`: `role == 'vendor'`. -/
def User.is_vendor (u : User) : Bool :=
  u.role == Role.vendor

/-- Method `User.can_moderate_products()`: `is_admin and is_active`. -/
def User.can_moderate_products (u : User) : Bool :=
  u.is_admin && u.is_active

/-- Method `User.can_sell_products()`: `is_vendor and is_active`. -/
def User.can_sell_products (u : User) : Bool :=
  u.is_vendor && u.is_active

/-- Model of `Product.STATUS_CHOICES` from `apps/products/models.py`. -/
inductive Status where
  | draft
  | pending
  | active
  | inactive
  | rejected
deriving DecidableEq, Repr

/-- A row of the `ProductImage` model. -/
structure ProductImage where
  id : Nat
  image_url : String
  alt_text : String
  is_primary : Bool
  order : Nat
  created_at : Nat
deriving DecidableEq, Repr

/-- A row of the `Product` model together with its related images. -/
structure Product where
  id : Nat
  name : String
  slug : String
  description : String
  price : Rat
  stock : Int
  category : Nat
  brand : Option Nat
  seller : Nat
  status : Status
  is_featured : Bool
  approved_by : Option Nat
  approved_at : Option Nat
  rejection_reason : String
  views_count : Nat
  sales_count : Nat
  created_at : Nat
  updated_at : Nat
  images : List ProductImage
deriving DecidableEq, Repr

/-- Error kinds produced by the views.  `notFound` is `Http404` raised by
`get_object_or_404` (it carries none of the entity's data), `forbidden` is a
403 response, `badRequest` a 400 response with a single `error` message, and
`validationFailed` the 400 response of the submission check carrying the
ordered list of all violated-rule messages. -/
inductive ApiError where
  | notFound
  | forbidden (msg : String)
  | badRequest (msg : String)
  | validationFailed (msgs : List String)
deriving DecidableEq, Repr

/-- Whitespace characters stripped from both ends of a character list. -/
def stripChars (l : List Char) : List Char :=
  ((l.dropWhile Char.isWhitespace).reverse.dropWhile Char.isWhitespace).reverse

/-- Model of Python's `str.strip()`: remove leading and trailing
whitespace. -/
def pyStrip (s : String) : String :=
  ⟨stripChars s.data⟩

/-- The database state of the product after a request: the view's success
payload if it saved, the untouched row otherwise (error responses are
returned before any `save()`). -/
def afterOp (r : Except ApiError Product) (p : Product) : Product :=
  match r with
  | .ok p' => p'
  | .error _ => p

/-- Comparator form of `ProductImage.Meta.ordering = ['-is_primary', 'order', 'created_at']` :
boolean comparator: primary flag descending, then explicit order ascending,
then creation time ascending. -/
def imageLE (a b : ProductImage) : Bool :=
  let pa : Nat := if a.is_primary then 0 else 1
  let pb : Nat := if b.is_primary then 0 else 1
  pa < pb || (pa == pb && (a.order < b.order ||
    (a.order == b.order && a.created_at ≤ b.created_at)))

/-- Stable insertion of an image into a list already sorted by `imageLE`. -/
def insertOrdered (x : ProductImage) : List ProductImage → List ProductImage
  | [] => [x]
  | y :: ys => if imageLE x y then x :: y :: ys else y :: insertOrdered x ys

/-- A queryset over a product's images: the rows stably sorted by the model's
default ordering (`ORDER BY -is_primary, order, created_at`). -/
def orderedImages : List ProductImage → List ProductImage
  | [] => []
  | x :: xs => insertOrdered x (orderedImages xs)

/-- Hook `ProductImage.save()` (models.py:146-154): if the saved image is primary,
first demote every *other* primary image of the same product
(`qs.exclude(pk=self.pk); qs.update(is_primary=False)`), then write the row —
updating it in place when the pk already exists, inserting it at the end of
the table otherwise. -/
def saveImage (images : List ProductImage) (img : ProductImage) : List ProductImage :=
  let demoted :=
    if img.is_primary then
      images.map fun i =>
        if i.id != img.id && i.is_primary then { i with is_primary := false } else i
    else images
  if demoted.any (fun i => i.id == img.id) then
    demoted.map fun i => if i.id == img.id then img else i
  else
    demoted ++ [img]

/-- Method `Product.increment_views()`: `views_count += 1;
save(update_fields=['views_count'])` — only `views_count` is persisted
(`update_fields` keeps `updated_at` and everything else out of the write). -/
def Product.increment_views (p : Product) : Product :=
  { p with views_count := p.views_count + 1 }

/-- View `submit_product_for_approval` (views.py:528-575).  The caller must be a
vendor, the lookup is `get_object_or_404(Product, pk=pk, seller=request.user)`
(modelled by the seller check), only `draft` products may be submitted, and
the four readiness rules are all evaluated before answering;
`submissionErrors` is the `errors` list the view accumulates. -/
def submissionErrors (product : Product) : List String :=
  (if product.images.isEmpty then ["At least one product image is required."] else [])
  ++ (if pyStrip product.description == "" then ["Product description cannot be empty."] else [])
  ++ (if product.price ≤ 0 then ["Product price must be greater than zero."] else [])
  ++ (if product.stock < 0 then ["Product stock cannot be negative."] else [])

def submit_product_for_approval (caller : User) (product : Product) :
    Except ApiError Product :=
  if !caller.is_vendor then
    .error (.forbidden "Only vendors can access this endpoint.")
  else if product.seller != caller.id then
    .error .notFound
  else if product.status != Status.draft then
    .error (.badRequest "Only products in draft status can be submitted for approval.")
  else if submissionErrors product != [] then
    .error (.validationFailed (submissionErrors product))
  else
    .ok { product with status := Status.pending }

/-- The writable fields of `VendorProductCreateUpdateSerializer`
(`name, description, price, stock, category_id, brand_id`); a `none` field was
absent from the request body.  `brand_id` distinguishes "absent" from an
explicit `null` (`allow_null=True`). -/
structure VendorProductData where
  name : Option String
  description : Option String
  price : Option Rat
  stock : Option Int
  category_id : Option Nat
  brand_id : Option (Option Nat)
deriving DecidableEq, Repr

/-- Validation `VendorProductCreateUpdateSerializer.is_valid()`: on a non-partial (`PUT`
or create) request `name`, `price`, `stock` and `category_id` are required;
a provided `name` must be non-blank and at most 200 characters
(`CharField(max_length=200)`); `validate_price` demands `price > 0`,
`validate_stock` demands `stock >= 0`; `category_id` must reference an active
category and a non-null `brand_id` an active brand (`PrimaryKeyRelatedField`
querysets).  `cats` / `brands` are the pk sets of the active rows of those
tables. -/
def serializerValid (cats brands : List Nat) (isPatch : Bool)
    (d : VendorProductData) : Bool :=
  (isPatch || (d.name.isSome && d.price.isSome && d.stock.isSome && d.category_id.isSome))
  && (match d.name with
      | none => true
      | some n => !(n == "") && n.length ≤ 200)
  && (match d.price with
      | none => true
      | some v => 0 < v)
  && (match d.stock with
      | none => true
      | some v => 0 ≤ v)
  && (match d.category_id with
      | none => true
      | some c => cats.contains c)
  && (match d.brand_id with
      | none => true
      | some none => true
      | some (some b) => brands.contains b)

/-- Effect of `serializer.save()` on an existing product: merge the provided fields into
the row; a plain `save()` (no `update_fields`) also bumps `updated_at`
(`auto_now=True`).  Slug, seller, status and the moderation fields are not
serializer fields and stay untouched. -/
def applyProductData (d : VendorProductData) (now : Nat) (p : Product) : Product :=
  { p with
    name := d.name.getD p.name
    description := d.description.getD p.description
    price := d.price.getD p.price
    stock := d.stock.getD p.stock
    category := d.category_id.getD p.category
    brand := match d.brand_id with
             | none => p.brand
             | some b => b
    updated_at := now }

/-- View `update_product` (views.py:375-424): vendor check, owner-scoped lookup,
the `status in ['draft', 'rejected']` guard, serializer validation, then the
save; a product that was `rejected` is afterwards reset to `draft` with its
`rejection_reason` cleared
(`save(update_fields=['status', 'rejection_reason'])`). -/
def update_product (cats brands : List Nat) (now : Nat) (caller : User)
    (product : Product) (isPatch : Bool) (d : VendorProductData) :
    Except ApiError Product :=
  if !caller.is_vendor then
    .error (.forbidden "Only vendors can access this endpoint.")
  else if product.seller != caller.id then
    .error .notFound
  else if product.status != Status.draft && product.status != Status.rejected then
    .error (.badRequest "You can only edit products in draft or rejected status.")
  else if !(serializerValid cats brands isPatch d) then
    .error (.badRequest "serializer errors")
  else
    let updated := applyProductData d now product
    if product.status == Status.rejected then
      .ok { updated with status := Status.draft, rejection_reason := "" }
    else
      .ok updated

/-- A crude model of `django.utils.text.slugify`: alphanumeric characters are
lowercased, everything else becomes a hyphen.  (No claim depends on the
slug's exact shape.) -/
def slugChars : List Char → List Char
  | [] => []
  | c :: cs => (if c.isAlphanum then c.toLower else '-') :: slugChars cs

def slugify (s : String) : String :=
  ⟨slugChars s.data⟩

/-- View `vendor_create_product` (views.py:213-248): only verified vendors may
create; on valid data the product is saved with `seller=request.user` and
`status='draft'` and no images. -/
def vendor_create_product (cats brands : List Nat) (caller : User)
    (d : VendorProductData) (newId now : Nat) : Except ApiError Product :=
  if !(caller.is_vendor && caller.is_verified_vendor) then
    .error (.forbidden "Only verified vendors can create products.")
  else if !(serializerValid cats brands false d) then
    .error (.badRequest "serializer errors")
  else
    .ok { id := newId
          name := d.name.getD ""
          slug := slugify (d.name.getD "")
          description := d.description.getD ""
          price := d.price.getD 0
          stock := d.stock.getD 0
          category := d.category_id.getD 0
          brand := d.brand_id.getD none
          seller := caller.id
          status := Status.draft
          is_featured := false
          approved_by := none
          approved_at := none
          rejection_reason := ""
          views_count := 0
          sales_count := 0
          created_at := now
          updated_at := now
          images := [] }

/-- View `get_product_detail` (views.py:338-366): vendor check, then owner-scoped
`get_object_or_404`; a read, so the row is returned unchanged. -/
def get_product_detail (caller : User) (product : Product) :
    Except ApiError Product :=
  if !caller.is_vendor then
    .error (.forbidden "Only vendors can access this endpoint.")
  else if product.seller != caller.id then
    .error .notFound
  else
    .ok product

/-- The request body of `add_product_image` as accepted by
`ProductImageSerializer` (`image_url, alt_text, is_primary, order`;
`is_primary` defaults to `False`, `order` to `0`).  The serializer's
URL-format validation of `image_url` is not modelled; it can only reject a
request before any write. -/
structure ImageData where
  image_url : String
  alt_text : String
  is_primary : Bool
  order : Nat
deriving DecidableEq, Repr

/-- View `add_product_image` (views.py:433-471): vendor check, owner-scoped
lookup; if the product has no images yet the request's `is_primary` is
overridden to `True`; the new row is then written through
`ProductImage.save()` (which demotes any other primary). -/
def add_product_image (caller : User) (product : Product) (d : ImageData)
    (newId now : Nat) : Except ApiError Product :=
  if !caller.is_vendor then
    .error (.forbidden "Only vendors can access this endpoint.")
  else if product.seller != caller.id then
    .error .notFound
  else
    let isPrim := if product.images.isEmpty then true else d.is_primary
    let img : ProductImage :=
      { id := newId, image_url := d.image_url, alt_text := d.alt_text,
        is_primary := isPrim, order := d.order, created_at := now }
    .ok { product with images := saveImage product.images img }

/-- View `delete_product_image` (views.py:476-500): vendor check, owner-scoped
product lookup, product-scoped image lookup; the row is deleted, and if it
was primary the first remaining image under the model's default ordering
(`product.images.first()`) is promoted through `ProductImage.save()`. -/
def delete_product_image (caller : User) (product : Product) (image_pk : Nat) :
    Except ApiError Product :=
  if !caller.is_vendor then
    .error (.forbidden "Only vendors can access this endpoint.")
  else if product.seller != caller.id then
    .error .notFound
  else
    match product.images.find? (fun i => i.id == image_pk) with
    | none => .error .notFound
    | some image =>
      if image.is_primary then
        match (orderedImages (product.images.filter fun i => i.id != image_pk)).head? with
        | some first_remaining =>
          .ok { product with
                images := saveImage (product.images.filter fun i => i.id != image_pk)
                  { first_remaining with is_primary := true } }
        | none =>
          .ok { product with images := product.images.filter fun i => i.id != image_pk }
      else
        .ok { product with images := product.images.filter fun i => i.id != image_pk }

/-- View `set_primary_product_image` (views.py:502-523): vendor check, owner-scoped
product lookup, product-scoped image lookup;
`product.images.update(is_primary=False)` demotes every image, then the
target is promoted through `ProductImage.save()`. -/
def set_primary_product_image (caller : User) (product : Product)
    (image_pk : Nat) : Except ApiError Product :=
  if !caller.is_vendor then
    .error (.forbidden "Only vendors can access this endpoint.")
  else if product.seller != caller.id then
    .error .notFound
  else
    match product.images.find? (fun i => i.id == image_pk) with
    | none => .error .notFound
    | some image =>
      let demoted := product.images.map fun i => { i with is_primary := false }
      .ok { product with images := saveImage demoted { image with is_primary := true } }

/-- View `admin_approve_product` (views.py:657-692).  Its
`permission_classes = [IsAuthenticated, permissions.IsAdminUser]` use DRF's
`IsAdminUser`, which checks `request.user.is_staff` (the custom
`IsAdminUser` of `apps/products/permissions.py`, which would check
`can_moderate_products()`, is not imported by the view module).  The lookup is
by pk only — no ownership scoping.  `save(update_fields=[...])` keeps
`updated_at` unchanged. -/
def admin_approve_product (now : Nat) (caller : User) (product : Product) :
    Except ApiError Product :=
  if !caller.is_staff then
    .error (.forbidden "You do not have permission to perform this action.")
  else if product.status != Status.pending then
    .error (.badRequest "Only products with pending status can be approved.")
  else
    .ok { product with
          status := Status.active
          approved_by := some caller.id
          approved_at := some now
          rejection_reason := "" }

/-- View `admin_reject_product` (views.py:694-740): same DRF `IsAdminUser`
(`is_staff`) gate; only `pending` products; the trimmed
`rejection_reason` from the body is required
(`request.data.get('rejection_reason', '').strip()`). -/
def admin_reject_product (now : Nat) (caller : User) (product : Product)
    (reasonRaw : Option String) : Except ApiError Product :=
  if !caller.is_staff then
    .error (.forbidden "You do not have permission to perform this action.")
  else if product.status != Status.pending then
    .error (.badRequest "Only products with pending status can be rejected.")
  else if pyStrip (reasonRaw.getD "") == "" then
    .error (.badRequest "Rejection reason is required")
  else
    .ok { product with
          status := Status.rejected
          rejection_reason := pyStrip (reasonRaw.getD "")
          approved_by := some caller.id
          approved_at := some now }

/-- View `public_product_detail` (views.py:131-155): anonymous endpoint;
`get_object_or_404(..., slug=slug, status='active',
seller__is_verified_vendor=True, seller__is_active=True)`, then
`product.increment_views()`. -/
def public_product_detail (product : Product) (seller : User) (slug : String) :
    Except ApiError Product :=
  if product.slug == slug && product.status == Status.active
      && seller.is_verified_vendor && seller.is_active then
    .ok product.increment_views
  else
    .error .notFound

/-- One request of the core workflow against an existing product, together
with its authenticated caller and request body. -/
inductive CoreOp where
  | updateOp (caller : User) (isPatch : Bool) (d : VendorProductData)
  | submitOp (caller : User)
  | approveOp (caller : User)
  | rejectOp (caller : User) (reason : Option String)
  | addImageOp (caller : User) (d : ImageData) (newId : Nat)
  | delImageOp (caller : User) (image_pk : Nat)
  | setPrimaryOp (caller : User) (image_pk : Nat)
deriving Repr

/-- The database state of the product after one core request. -/
def applyCoreOp (cats brands : List Nat) (now : Nat) (p : Product) :
    CoreOp → Product
  | .updateOp c ip d => afterOp (update_product cats brands now c p ip d) p
  | .submitOp c => afterOp (submit_product_for_approval c p) p
  | .approveOp c => afterOp (admin_approve_product now c p) p
  | .rejectOp c r => afterOp (admin_reject_product now c p r) p
  | .addImageOp c d newId => afterOp (add_product_image c p d newId now) p
  | .delImageOp c pk => afterOp (delete_product_image c p pk) p
  | .setPrimaryOp c pk => afterOp (set_primary_product_image c p pk) p

/-- Number of images of `p` flagged primary. -/
def primaryCount (p : Product) : Nat :=
  p.images.countP (·.is_primary)

/-- The primary-image invariant of the spec: at most one primary image, and
exactly one as soon as the image set is non-empty. -/
def imgInvariant (p : Product) : Prop :=
  primaryCount p ≤ 1 ∧ (p.images ≠ [] → primaryCount p = 1)

/-- Exactly the image with pk `pk` is primary: some image carries that pk, and
an image is primary if and only if it does. -/
def exactlyPrimaryId (p : Product) (pk : Nat) : Prop :=
  (∃ i ∈ p.images, i.id = pk) ∧ ∀ i ∈ p.images, (i.is_primary = true ↔ i.id = pk)

/-- The products reachable through the image endpoints: a freshly created
product has no images (`vendor_create_product` saves none), and each step is
the database state after one `add_product_image` / `delete_product_image` /
`set_primary_product_image` request by an arbitrary caller.  The freshness of
`newId` for an insert is Django's `AutoField` guarantee. -/
inductive ImgReachable : Product → Prop where
  | created (p : Product) (h : p.images = []) : ImgReachable p
  | addStep (p : Product) (c : User) (d : ImageData) (newId now : Nat)
      (hp : ImgReachable p) (hfresh : ∀ i ∈ p.images, i.id ≠ newId) :
      ImgReachable (afterOp (add_product_image c p d newId now) p)
  | delStep (p : Product) (c : User) (image_pk : Nat) (hp : ImgReachable p) :
      ImgReachable (afterOp (delete_product_image c p image_pk) p)
  | setPrimaryStep (p : Product) (c : User) (image_pk : Nat) (hp : ImgReachable p) :
      ImgReachable (afterOp (set_primary_product_image c p image_pk) p)

instance (p : Product) (pk : Nat) : Decidable (exactlyPrimaryId p pk) := by
  unfold exactlyPrimaryId
  exact instDecidableAnd

instance (p : Product) : Decidable (imgInvariant p) := by
  unfold imgInvariant
  exact instDecidableAnd

deriving instance DecidableEq for Except

/-- A verified, active vendor (fixture for witnesses). -/
def sampleVendor : User :=
  { id := 7, role := Role.vendor, is_active := true, is_staff := false,
    is_superuser := false, is_verified_vendor := true }

/-- A second verified vendor, distinct from `sampleVendor` (fixture). -/
def otherVendor : User :=
  { id := 8, role := Role.vendor, is_active := true, is_staff := false,
    is_superuser := false, is_verified_vendor := true }

/-- An active staff member whose role is `customer` — Django's `is_staff`
flag without the application-level admin role (fixture). -/
def staffCustomer : User :=
  { id := 42, role := Role.customer, is_active := true, is_staff := true,
    is_superuser := false, is_verified_vendor := false }

/-- An active user with role `admin` but without the `is_staff` flag, as
produced by `User.objects.create_user(..., role='admin')` (fixture). -/
def roleAdminNotStaff : User :=
  { id := 43, role := Role.admin, is_active := true, is_staff := false,
    is_superuser := false, is_verified_vendor := false }

/-- A primary image (fixture). -/
def sampleImageA : ProductImage :=
  { id := 1, image_url := "img-a", alt_text := "", is_primary := true,
    order := 0, created_at := 1 }

/-- A secondary image (fixture). -/
def sampleImageB : ProductImage :=
  { id := 2, image_url := "img-b", alt_text := "", is_primary := false,
    order := 1, created_at := 2 }

/-- A draft product of `sampleVendor` with two images (fixture). -/
def sampleDraft : Product :=
  { id := 1, name := "Test Product", slug := "test-product",
    description := "A test product description", price := 99, stock := 10,
    category := 1, brand := none, seller := 7, status := Status.draft,
    is_featured := false, approved_by := none, approved_at := none,
    rejection_reason := "", views_count := 0, sales_count := 0,
    created_at := 0, updated_at := 0, images := [sampleImageA, sampleImageB] }


/-- C1: for a `draft` product owned by the vendor caller, submission moves the
product to `pending` exactly when it has at least one image, a non-blank
(stripped) description, a positive price and non-negative stock; otherwise the
response is a validation-error list holding precisely the messages of the
violated rules — one per violated rule, none for a satisfied rule, nothing
else — and the stored row stays in `draft`. -/
theorem submit_readiness_C1 (caller : User) (p : Product)
    (hv : caller.is_vendor = true) (hown : p.seller = caller.id)
    (hst : p.status = Status.draft) :
    (submit_product_for_approval caller p = .ok { p with status := Status.pending }
      ↔ (p.images ≠ [] ∧ pyStrip p.description ≠ "" ∧ 0 < p.price ∧ 0 ≤ p.stock))
    ∧ (∀ errs, submit_product_for_approval caller p
          = .error (.validationFailed errs) →
        ("At least one product image is required." ∈ errs ↔ p.images = [])
        ∧ ("Product description cannot be empty." ∈ errs ↔ pyStrip p.description = "")
        ∧ ("Product price must be greater than zero." ∈ errs ↔ p.price ≤ 0)
        ∧ ("Product stock cannot be negative." ∈ errs ↔ p.stock < 0)
        ∧ ∀ m ∈ errs,
            m = "At least one product image is required."
            ∨ m = "Product description cannot be empty."
            ∨ m = "Product price must be greater than zero."
            ∨ m = "Product stock cannot be negative.")
    ∧ (¬ (p.images ≠ [] ∧ pyStrip p.description ≠ "" ∧ 0 < p.price ∧ 0 ≤ p.stock) →
        (∃ errs, submit_product_for_approval caller p
            = .error (.validationFailed errs))
        ∧ afterOp (submit_product_for_approval caller p) p = p) := by
  unfold submit_product_for_approval submissionErrors
  simp only [hv, hown, hst, Bool.not_true, bne_self_eq_false, Bool.false_eq_true,
    if_false, ite_false, ite_true, if_true]
  by_cases h1 : p.images = [] <;> by_cases h2 : pyStrip p.description = ""
    <;> by_cases h3 : p.price ≤ 0 <;> by_cases h4 : p.stock < 0
    <;> simp_all [afterOp, List.isEmpty_iff, not_le, not_lt, le_of_lt] <;> tauto

/-- Witness for C1: a draft product with images and description but price 0 is
rejected with the price message and left unchanged. -/
theorem submit_readiness_C1_witness :
    ("Product price must be greater than zero."
        ∈ ["Product price must be greater than zero."])
    ∧ afterOp (submit_product_for_approval sampleVendor { sampleDraft with price := 0 })
        { sampleDraft with price := 0 } = { sampleDraft with price := 0 } := by
  have h := submit_readiness_C1 sampleVendor { sampleDraft with price := 0 } rfl rfl rfl
  refine ⟨((h.2.1 _ (by decide)).2.2.1).mpr (by norm_num), (h.2.2 (by simp)).2⟩

/-- C2: an update attempt by the owning vendor on a product in `pending` or
`active` status returns an error and leaves every field of the product
unchanged (no partial write). -/
theorem no_edit_when_pending_or_active_C2 (cats brands : List Nat) (now : Nat)
    (caller : User) (p : Product) (isPatch : Bool) (d : VendorProductData)
    (hv : caller.is_vendor = true) (hown : p.seller = caller.id)
    (hst : p.status = Status.pending ∨ p.status = Status.active) :
    (∃ msg, update_product cats brands now caller p isPatch d
        = .error (.badRequest msg))
    ∧ afterOp (update_product cats brands now caller p isPatch d) p = p := by
  unfold update_product
  rcases hst with h | h <;> simp [hv, hown, h, afterOp]

/-- Witness for C2 on a concrete pending product. -/
theorem no_edit_C2_witness :
    afterOp (update_product [1] [] 5 sampleVendor { sampleDraft with status := Status.pending }
        true ⟨some "New name", none, none, none, none, none⟩)
      { sampleDraft with status := Status.pending }
      = { sampleDraft with status := Status.pending } :=
  (no_edit_when_pending_or_active_C2 [1] [] 5 sampleVendor
    { sampleDraft with status := Status.pending } true
    ⟨some "New name", none, none, none, none, none⟩ rfl rfl (Or.inl rfl)).2

/-- C3: every successful vendor update of a product in `rejected` status
yields a product whose status is `draft` and whose rejection_reason is the
empty string. -/
theorem rejected_edit_resets_C3 (cats brands : List Nat) (now : Nat)
    (caller : User) (p : Product) (isPatch : Bool) (d : VendorProductData)
    (p' : Product)
    (hst : p.status = Status.rejected)
    (hok : update_product cats brands now caller p isPatch d = .ok p') :
    p'.status = Status.draft ∧ p'.rejection_reason = "" := by
  unfold update_product at hok
  split at hok
  · exact absurd hok (by simp)
  · split at hok
    · exact absurd hok (by simp)
    · split at hok
      · exact absurd hok (by simp)
      · split at hok
        · exact absurd hok (by simp)
        · rw [if_pos (by simp [hst])] at hok
          injection hok with h
          subst h
          simp

/-- Witness for C3: updating the name of a rejected product with reason
"bad photos" succeeds and resets it to draft with an empty reason. -/
theorem rejected_edit_resets_C3_witness :
    ∃ p',
      update_product [1] [] 50 sampleVendor
          { sampleDraft with status := Status.rejected, rejection_reason := "bad photos" }
          true ⟨some "Fixed", none, none, none, none, none⟩ = .ok p'
        ∧ p'.status = Status.draft ∧ p'.rejection_reason = "" := by
  have heq :
      update_product [1] [] 50 sampleVendor
          { sampleDraft with status := Status.rejected, rejection_reason := "bad photos" }
          true ⟨some "Fixed", none, none, none, none, none⟩
        = .ok { sampleDraft with name := "Fixed", updated_at := 50 } := by decide
  exact ⟨_, heq,
    rejected_edit_resets_C3 [1] [] 50 sampleVendor
      { sampleDraft with status := Status.rejected, rejection_reason := "bad photos" }
      true ⟨some "Fixed", none, none, none, none, none⟩ _ rfl heq⟩

/-- C7: for a vendor caller and a product whose seller is someone else,
detail-read, update, submit and all three image operations answer `notFound`
— never `forbidden` and never the product's data — so the product is
indistinguishable from a nonexistent one. -/
theorem cross_vendor_not_found_C7 (cats brands : List Nat) (now now2 : Nat)
    (caller : User) (p : Product) (isPatch : Bool) (d : VendorProductData)
    (imgd : ImageData) (newId image_pk : Nat)
    (hv : caller.is_vendor = true) (hne : p.seller ≠ caller.id) :
    get_product_detail caller p = .error .notFound
    ∧ update_product cats brands now caller p isPatch d = .error .notFound
    ∧ submit_product_for_approval caller p = .error .notFound
    ∧ add_product_image caller p imgd newId now2 = .error .notFound
    ∧ delete_product_image caller p image_pk = .error .notFound
    ∧ set_primary_product_image caller p image_pk = .error .notFound := by
  refine ⟨?_, ?_, ?_, ?_, ?_, ?_⟩ <;>
    simp [get_product_detail, update_product, submit_product_for_approval,
      add_product_image, delete_product_image, set_primary_product_image,
      hv, hne, bne_iff_ne]

/-- Witness for C7: a second vendor probing the sample product. -/
theorem cross_vendor_not_found_C7_witness :
    get_product_detail otherVendor sampleDraft = .error .notFound
    ∧ update_product [1] [] 5 otherVendor sampleDraft true
        ⟨some "X", none, none, none, none, none⟩ = .error .notFound :=
  have h := cross_vendor_not_found_C7 [1] [] 5 6 otherVendor sampleDraft true
    ⟨some "X", none, none, none, none, none⟩ ⟨"u", "", false, 0⟩ 9 1 rfl (by decide)
  ⟨h.1, h.2.1⟩

/-- C8 (amended): approve and reject succeed only for callers with Django's
`is_staff` flag (DRF `IsAdminUser`); a caller without that flag receives an
error and the product is unchanged.  The role-based `can_moderate_products`
capability of the claim is not what these views consult. -/
theorem moderation_requires_staff_C8 (now : Nat) (caller : User) (p : Product)
    (reason : Option String) :
    ((∃ p', admin_approve_product now caller p = .ok p') → caller.is_staff = true)
    ∧ ((∃ p', admin_reject_product now caller p reason = .ok p') → caller.is_staff = true)
    ∧ (caller.is_staff = false →
        (∃ m, admin_approve_product now caller p = .error (.forbidden m))
        ∧ (∃ m, admin_reject_product now caller p reason = .error (.forbidden m))
        ∧ afterOp (admin_approve_product now caller p) p = p
        ∧ afterOp (admin_reject_product now caller p reason) p = p) := by
  refine ⟨?_, ?_, ?_⟩
  · rintro ⟨p', h⟩
    unfold admin_approve_product at h
    by_cases hs : caller.is_staff = true
    · exact hs
    · simp [Bool.eq_false_iff.mpr fun hc => hs hc] at h
  · rintro ⟨p', h⟩
    unfold admin_reject_product at h
    by_cases hs : caller.is_staff = true
    · exact hs
    · simp [Bool.eq_false_iff.mpr fun hc => hs hc] at h
  · intro hs
    unfold admin_approve_product admin_reject_product
    simp [hs, afterOp]

/-- Witness for C8: an active role-admin user without the staff flag cannot
approve; the product is unchanged. -/
theorem moderation_requires_staff_C8_witness :
    afterOp (admin_approve_product 0 roleAdminNotStaff
        { sampleDraft with status := Status.pending })
      { sampleDraft with status := Status.pending }
      = { sampleDraft with status := Status.pending } :=
  ((moderation_requires_staff_C8 0 roleAdminNotStaff
      { sampleDraft with status := Status.pending } none).2.2 rfl).2.2.1

/-- Counterexample to C8 as stated: an active staff member whose role is
`customer` — so without the moderation capability `can_moderate_products` —
successfully approves a pending product. -/
theorem moderation_capability_C8_counterexample :
    admin_approve_product 9 staffCustomer { sampleDraft with status := Status.pending }
      = .ok { sampleDraft with
              status := Status.active, approved_by := some 42,
              approved_at := some 9, rejection_reason := "" }
    ∧ staffCustomer.can_moderate_products = false := by
  exact ⟨by decide, by decide⟩

/-- C10: a successful public detail read (active product, verified active
seller, matching slug) returns the product with `views_count` incremented by
exactly one and every other field unchanged. -/
theorem public_detail_increments_views_C10 (p : Product) (seller : User)
    (slug : String) (hslug : p.slug = slug) (hst : p.status = Status.active)
    (hver : seller.is_verified_vendor = true) (hact : seller.is_active = true) :
    public_product_detail p seller slug
      = .ok { p with views_count := p.views_count + 1 } := by
  simp [public_product_detail, Product.increment_views, hslug, hst, hver, hact]

/-- Witness for C10 on a concrete active product. -/
theorem public_detail_increments_views_C10_witness :
    public_product_detail { sampleDraft with status := Status.active } sampleVendor
        "test-product"
      = .ok { sampleDraft with status := Status.active, views_count := 1 } := by
  have h := public_detail_increments_views_C10 { sampleDraft with status := Status.active }
    sampleVendor "test-product" rfl rfl rfl rfl
  simpa using h

/-- Inserting into the sorted image list is a permutation of consing. -/
theorem insertOrdered_perm (x : ProductImage) (l : List ProductImage) :
    (insertOrdered x l).Perm (x :: l) := by
  induction l with
  | nil => simp [insertOrdered]
  | cons y ys ih =>
    unfold insertOrdered
    split
    · exact List.Perm.refl _
    · exact (ih.cons y).trans (List.Perm.swap x y ys)

/-- The default-ordered queryset is a permutation of the stored rows. -/
theorem orderedImages_perm (l : List ProductImage) :
    (orderedImages l).Perm l := by
  induction l with
  | nil => exact List.Perm.refl _
  | cons x xs ih =>
    exact (insertOrdered_perm x (orderedImages xs)).trans (ih.cons x)

/-- After replacing the images with pk `pk` by a primary image and demoting
everything else, exactly the image with pk `pk` is primary. -/
theorem promote_map_exactly (l : List ProductImage) (pk : Nat) (imgP : ProductImage)
    (g : ProductImage → ProductImage)
    (hgid : ∀ i, (g i).id = i.id) (hgp : ∀ i, (g i).is_primary = false)
    (hp : imgP.is_primary = true) (hid : imgP.id = pk) (hm : ∃ i ∈ l, i.id = pk) :
    (∃ j ∈ l.map (fun i => if i.id == pk then imgP else g i), j.id = pk)
    ∧ ∀ j ∈ l.map (fun i => if i.id == pk then imgP else g i),
        (j.is_primary = true ↔ j.id = pk) := by
  constructor
  · obtain ⟨x, hx, hxid⟩ := hm
    exact ⟨imgP, List.mem_map.mpr ⟨x, hx, by simp [hxid]⟩, hid⟩
  · intro j hj
    obtain ⟨i, hi, hij⟩ := List.mem_map.mp hj
    by_cases hc : i.id = pk
    · rw [← hij]
      simp [hc, hp, hid]
    · rw [← hij]
      simp [hc, hgp i, hgid i]

/-- Looking up pk `pk` after a promote-shaped rewrite finds the promoted
image. -/
theorem promote_map_find (l : List ProductImage) (pk : Nat) (imgP : ProductImage)
    (g : ProductImage → ProductImage) (hgid : ∀ i, (g i).id = i.id)
    (hid : imgP.id = pk) (hm : ∃ i ∈ l, i.id = pk) :
    (l.map (fun i => if i.id == pk then imgP else g i)).find? (fun i => i.id == pk)
      = some imgP := by
  induction l with
  | nil => simp at hm
  | cons a t ih =>
    by_cases hc : a.id = pk
    · simp [hc, hid]
    · have hm' : ∃ i ∈ t, i.id = pk := by
        obtain ⟨x, hx, hxid⟩ := hm
        rcases List.mem_cons.mp hx with rfl | hx'
        · exact absurd hxid hc
        · exact ⟨x, hx', hxid⟩
      simpa [hc, hgid a] using ih hm'

/-- The number of primaries after a promote-shaped rewrite is the number of
occurrences of the promoted pk. -/
theorem promote_map_countP (l : List ProductImage) (pk : Nat) (imgP : ProductImage)
    (g : ProductImage → ProductImage) (hgp : ∀ i, (g i).is_primary = false)
    (hp : imgP.is_primary = true) :
    (l.map (fun i => if i.id == pk then imgP else g i)).countP (·.is_primary)
      = l.countP (fun i => i.id == pk) := by
  induction l with
  | nil => rfl
  | cons a t ih =>
    simp only [List.map_cons, List.countP_cons]
    rw [ih]
    by_cases hc : a.id = pk <;> simp [hc, hp, hgp a]

/-- A promote-shaped rewrite leaves the pk column unchanged. -/
theorem promote_map_ids (l : List ProductImage) (pk : Nat) (imgP : ProductImage)
    (g : ProductImage → ProductImage) (hgid : ∀ i, (g i).id = i.id)
    (hid : imgP.id = pk) :
    (l.map (fun i => if i.id == pk then imgP else g i)).map (·.id) = l.map (·.id) := by
  rw [List.map_map]
  apply List.map_congr_left
  intro i _
  by_cases hc : i.id = pk <;> simp [hc, hgid i, hid, Function.comp]

/-- With distinct pks, a pk that occurs in the list occurs exactly once. -/
theorem countP_id_eq_one (l : List ProductImage) (pk : Nat)
    (hnd : (l.map (·.id)).Nodup) (hm : ∃ i ∈ l, i.id = pk) :
    l.countP (fun i => i.id == pk) = 1 := by
  induction l with
  | nil => simp at hm
  | cons a t ih =>
    simp only [List.map_cons, List.nodup_cons] at hnd
    by_cases hc : a.id = pk
    · have ht : t.countP (fun i => i.id == pk) = 0 := by
        apply List.countP_eq_zero.mpr
        intro x hx hxe
        exact hnd.1 (by
          have : x.id = pk := by simpa using hxe
          rw [hc, ← this]
          exact List.mem_map_of_mem _ hx)
      simp [List.countP_cons, hc, ht]
    · have hm' : ∃ i ∈ t, i.id = pk := by
        obtain ⟨x, hx, hxid⟩ := hm
        rcases List.mem_cons.mp hx with rfl | hx'
        · exact absurd hxid hc
        · exact ⟨x, hx', hxid⟩
      simp [List.countP_cons, hc, ih hnd.2 hm']

/-- Saving an image whose pk is new inserts it at the end, demoting the other
primaries first when it is primary itself. -/
theorem saveImage_fresh (l : List ProductImage) (img : ProductImage)
    (hfresh : ∀ i ∈ l, i.id ≠ img.id) :
    saveImage l img =
      (if img.is_primary then
         l.map fun i => if i.is_primary then { i with is_primary := false } else i
       else l) ++ [img] := by
  unfold saveImage
  cases hp : img.is_primary
  · simp only [Bool.false_eq_true, if_false]
    rw [if_neg]
    simp only [List.any_eq_true, not_exists, not_and]
    intro i hi
    simp [hfresh i hi]
  · simp only [if_true]
    have h1 : (l.map fun i =>
        if i.id != img.id && i.is_primary then { i with is_primary := false } else i)
        = l.map fun i => if i.is_primary then { i with is_primary := false } else i := by
      apply List.map_congr_left
      intro i hi
      simp [bne_iff_ne, hfresh i hi]
    rw [h1, if_neg]
    simp only [List.any_eq_true, List.mem_map, not_exists, not_and]
    rintro j ⟨i, hi, rfl⟩
    by_cases hpi : i.is_primary = true <;> simp [hpi, hfresh i hi]

/-- Saving a primary image whose pk already exists rewrites the list in one
pass: the row with that pk becomes the saved image, every other primary row is
demoted. -/
theorem saveImage_promote_eq (l : List ProductImage) (imgP : ProductImage)
    (hp : imgP.is_primary = true) (hm : ∃ i ∈ l, i.id = imgP.id) :
    saveImage l imgP = l.map fun i =>
      if i.id == imgP.id then imgP
      else if i.is_primary then { i with is_primary := false } else i := by
  unfold saveImage
  simp only [hp, if_true]
  rw [if_pos]
  · rw [List.map_map]
    apply List.map_congr_left
    intro i _
    by_cases hc : i.id = imgP.id
    · simp [Function.comp, hc]
    · by_cases hpi : i.is_primary = true <;> simp [Function.comp, hc, hpi]
  · simp only [List.any_eq_true, List.mem_map]
    obtain ⟨x, hx, hxid⟩ := hm
    refine ⟨if x.id != imgP.id && x.is_primary then { x with is_primary := false } else x,
      ⟨x, hx, rfl⟩, ?_⟩
    by_cases hpx : (x.id != imgP.id && x.is_primary) = true <;> simp [hpx, hxid]

/-- The demote-all-then-save sequence of the set-primary view, as a single
map over the stored rows. -/
theorem set_primary_core_eq (l : List ProductImage) (pk : Nat) (y : ProductImage)
    (hfind : l.find? (fun i => i.id == pk) = some y) :
    saveImage (l.map fun i => { i with is_primary := false })
        { y with is_primary := true }
      = l.map fun i =>
          if i.id == pk then { y with is_primary := true }
          else { i with is_primary := false } := by
  have hyid : y.id = pk := by simpa using List.find?_some hfind
  have hymem : y ∈ l := List.mem_of_find?_eq_some hfind
  rw [saveImage_promote_eq (l.map fun i => { i with is_primary := false })
    { y with is_primary := true } rfl
    ⟨{ y with is_primary := false }, List.mem_map.mpr ⟨y, hymem, rfl⟩, rfl⟩]
  rw [List.map_map]
  apply List.map_congr_left
  intro i _
  by_cases hc : i.id = pk <;> simp [Function.comp, hc, hyid]

/-- Closed form of a successful `set_primary_product_image` call. -/
theorem set_primary_images_eq (caller : User) (p : Product) (pk : Nat)
    (y : ProductImage) (hv : caller.is_vendor = true) (hown : p.seller = caller.id)
    (hfind : p.images.find? (fun i => i.id == pk) = some y) :
    set_primary_product_image caller p pk
      = .ok { p with images := p.images.map fun i =>
          if i.id == pk then { y with is_primary := true }
          else { i with is_primary := false } } := by
  unfold set_primary_product_image
  simp only [hv, hown, bne_self_eq_false, Bool.not_true, Bool.not_false,
    Bool.false_eq_true, if_false, ite_false, hfind]
  rw [set_primary_core_eq p.images pk y hfind]

/-- C6: for an owning vendor and any image X of the product, set-primary
succeeds and leaves exactly X primary, and calling it again immediately also
succeeds and again leaves exactly X primary. -/
theorem set_primary_idempotent_C6 (caller : User) (p : Product) (pk : Nat)
    (x : ProductImage) (hv : caller.is_vendor = true) (hown : p.seller = caller.id)
    (hmem : x ∈ p.images) (hid : x.id = pk) :
    ∃ p1, set_primary_product_image caller p pk = .ok p1 ∧ exactlyPrimaryId p1 pk
      ∧ ∃ p2, set_primary_product_image caller p1 pk = .ok p2
          ∧ exactlyPrimaryId p2 pk := by
  obtain ⟨y, hfind⟩ : ∃ y, p.images.find? (fun i => i.id == pk) = some y :=
    Option.isSome_iff_exists.mp (List.find?_isSome.mpr ⟨x, hmem, by simp [hid]⟩)
  have hyid : y.id = pk := by simpa using List.find?_some hfind
  have h1 := set_primary_images_eq caller p pk y hv hown hfind
  refine ⟨_, h1, ?_, ?_⟩
  · exact promote_map_exactly p.images pk { y with is_primary := true }
      (fun i => { i with is_primary := false }) (fun i => rfl) (fun i => rfl)
      rfl hyid ⟨x, hmem, hid⟩
  · have hfind2 : (p.images.map fun i =>
        if i.id == pk then { y with is_primary := true }
        else { i with is_primary := false }).find? (fun i => i.id == pk)
        = some { y with is_primary := true } :=
      promote_map_find p.images pk { y with is_primary := true }
        (fun i => { i with is_primary := false }) (fun i => rfl) hyid ⟨x, hmem, hid⟩
    have h2 := set_primary_images_eq caller
      { p with images := p.images.map fun i =>
          if i.id == pk then { y with is_primary := true }
          else { i with is_primary := false } }
      pk { y with is_primary := true } hv hown hfind2
    refine ⟨_, h2, ?_⟩
    exact promote_map_exactly _ pk { y with is_primary := true }
      (fun i => { i with is_primary := false }) (fun i => rfl) (fun i => rfl)
      rfl hyid
      ⟨{ y with is_primary := true },
        List.mem_map.mpr ⟨x, hmem, by simp [hid, hyid]⟩, hyid⟩

/-- Witness for C6: promoting the secondary image of the sample product
twice. -/
theorem set_primary_idempotent_C6_witness :
    ∃ p1, set_primary_product_image sampleVendor sampleDraft 2 = .ok p1
      ∧ exactlyPrimaryId p1 2
      ∧ ∃ p2, set_primary_product_image sampleVendor p1 2 = .ok p2
          ∧ exactlyPrimaryId p2 2 :=
  set_primary_idempotent_C6 sampleVendor sampleDraft 2 sampleImageB rfl rfl
    (by decide) rfl

/-- Deleting a row by pk (under distinct pks) removes exactly that row's
contribution to the primary count. -/
theorem countP_primary_filter_ne (l : List ProductImage) (pk : Nat)
    (y : ProductImage) (hnd : (l.map (·.id)).Nodup)
    (hfind : l.find? (fun i => i.id == pk) = some y) :
    l.countP (·.is_primary)
      = (l.filter fun i => i.id != pk).countP (·.is_primary)
        + (if y.is_primary then 1 else 0) := by
  induction l with
  | nil => simp at hfind
  | cons a t ih =>
    simp only [List.map_cons, List.nodup_cons] at hnd
    by_cases hc : a.id = pk
    · have hy : y = a := by
        rw [List.find?_cons_of_pos _ (by simp [hc])] at hfind
        exact (Option.some.injEq _ _ ▸ hfind).symm
      have hkeep : t.filter (fun i => i.id != pk) = t := by
        apply List.filter_eq_self.mpr
        intro x hx
        simp only [bne_iff_ne, ne_eq, decide_eq_true_eq]
        intro hxe
        exact hnd.1 (by rw [hc, ← hxe]; exact List.mem_map_of_mem _ hx)
      subst hy
      simp only [List.countP_cons, List.filter_cons, hc, bne_self_eq_false,
        Bool.false_eq_true, if_false, hkeep]
    · rw [List.find?_cons_of_neg _ (by simp [hc])] at hfind
      have hbne : (a.id != pk) = true := by simp [bne_iff_ne, hc]
      simp only [List.countP_cons, List.filter_cons, hbne, if_true, ite_true,
        List.countP_cons, ih hnd.2 hfind]
      omega

/-- C9: deleting an image of an owning vendor's product succeeds; when the
deleted image was primary, the head of the remaining rows under the model's
default ordering becomes the unique primary, and when nothing remains, the
image list is empty (no primary, vacuous invariant); a non-primary delete
reassigns nothing. -/
theorem delete_image_C9 (caller : User) (p : Product) (image_pk : Nat)
    (y : ProductImage) (hv : caller.is_vendor = true) (hown : p.seller = caller.id)
    (hfind : p.images.find? (fun i => i.id == image_pk) = some y) :
    ∃ p', delete_product_image caller p image_pk = .ok p'
      ∧ ((p.images.filter fun i => i.id != image_pk) = [] → p'.images = [])
      ∧ (y.is_primary = true →
          ∀ h', (orderedImages (p.images.filter fun i => i.id != image_pk)).head?
              = some h' → exactlyPrimaryId p' h'.id)
      ∧ (y.is_primary = false →
          p'.images = (p.images.filter fun i => i.id != image_pk)) := by
  unfold delete_product_image
  simp only [hv, hown, bne_self_eq_false, Bool.not_true, Bool.not_false,
    Bool.false_eq_true, if_false, ite_false, hfind]
  cases hyp : y.is_primary
  · refine ⟨_, rfl, ?_, ?_, ?_⟩
    · intro h
      simp [h]
    · intro hcon
      exact absurd hcon (by simp)
    · intro _
      rfl
  · cases hh : (orderedImages (p.images.filter fun i => i.id != image_pk)).head?
    · refine ⟨_, rfl, ?_, ?_, ?_⟩
      · intro h
        simp [h]
      · intro _ h' hh'
        exact absurd hh' (by simp)
      · intro hcon
        exact absurd hcon (by simp)
    · rename_i h1
      have h1mem : h1 ∈ p.images.filter fun i => i.id != image_pk := by
        have hmem : h1 ∈ orderedImages (p.images.filter fun i => i.id != image_pk) :=
          List.mem_of_mem_head? hh
        exact (orderedImages_perm _).mem_iff.mp hmem
      refine ⟨_, rfl, ?_, ?_, ?_⟩
      · intro h
        rw [h] at hh
        simp [orderedImages] at hh
      · intro _ h' hh'
        have hh'eq : h1 = h' := by simpa using hh'
        subst hh'eq
        show exactlyPrimaryId { p with
          images := saveImage (p.images.filter fun i => i.id != image_pk)
            { h1 with is_primary := true } } h1.id
        rw [show saveImage (p.images.filter fun i => i.id != image_pk)
              { h1 with is_primary := true }
            = (p.images.filter fun i => i.id != image_pk).map fun i =>
                if i.id == h1.id then { h1 with is_primary := true }
                else if i.is_primary then { i with is_primary := false } else i from
          saveImage_promote_eq (p.images.filter fun i => i.id != image_pk)
            { h1 with is_primary := true } rfl ⟨h1, h1mem, rfl⟩]
        exact promote_map_exactly _ h1.id { h1 with is_primary := true }
          (fun i => if i.is_primary then { i with is_primary := false } else i)
          (fun i => by by_cases hpi : i.is_primary = true <;> simp [hpi])
          (fun i => by by_cases hpi : i.is_primary = true <;> simp [hpi])
          rfl rfl ⟨h1, h1mem, rfl⟩
      · intro hcon
        exact absurd hcon (by simp)

/-- Witness for C9: deleting the primary image of the sample product
promotes the remaining image. -/
theorem delete_image_C9_witness :
    ∃ p', delete_product_image sampleVendor sampleDraft 1 = .ok p'
      ∧ exactlyPrimaryId p' 2 := by
  have h := delete_image_C9 sampleVendor sampleDraft 1 sampleImageA rfl rfl (by decide)
  obtain ⟨p', hok, hemp, hprom, hnon⟩ := h
  refine ⟨p', hok, ?_⟩
  have := hprom rfl sampleImageB (by decide)
  simpa using this

/-- Demoting all primaries keeps the pk column. -/
theorem demoteIfPrim_ids (l : List ProductImage) :
    ((l.map fun i => if i.is_primary then { i with is_primary := false } else i).map
      (·.id)) = l.map (·.id) := by
  rw [List.map_map]
  apply List.map_congr_left
  intro i _
  by_cases hpi : i.is_primary = true <;> simp [Function.comp, hpi]

/-- Demoting all primaries leaves no primary. -/
theorem demoteIfPrim_countP (l : List ProductImage) :
    (l.map fun i => if i.is_primary then { i with is_primary := false } else i).countP
      (·.is_primary) = 0 := by
  apply List.countP_eq_zero.mpr
  intro j hj
  obtain ⟨i, hi, rfl⟩ := List.mem_map.mp hj
  by_cases hpi : i.is_primary = true <;> simp [hpi]

/-- A product with exactly one primary image satisfies the invariant. -/
theorem imgInvariant_of_countP_one (q : Product)
    (h : q.images.countP (·.is_primary) = 1) : imgInvariant q := by
  constructor
  · unfold primaryCount
    rw [h]
  · intro _
    unfold primaryCount
    rw [h]

/-- A product with no images satisfies the invariant. -/
theorem imgInvariant_of_nil (q : Product) (h : q.images = []) : imgInvariant q := by
  constructor
  · unfold primaryCount
    rw [h]
    simp
  · intro hc
    exact absurd h hc

/-- The add-image endpoint preserves pk distinctness and the primary-image
invariant (given a fresh pk for the insert). -/
theorem add_image_inv (c : User) (p : Product) (d : ImageData) (newId now : Nat)
    (hfresh : ∀ i ∈ p.images, i.id ≠ newId)
    (hnd : (p.images.map (·.id)).Nodup) (hinv : imgInvariant p) :
    (((afterOp (add_product_image c p d newId now) p).images.map (·.id)).Nodup)
    ∧ imgInvariant (afterOp (add_product_image c p d newId now) p) := by
  unfold add_product_image
  split
  · exact ⟨hnd, hinv⟩
  split
  · exact ⟨hnd, hinv⟩
  simp only [afterOp]
  by_cases hemp : p.images = []
  · simp only [hemp]
    simp [saveImage, imgInvariant, primaryCount]
  · have hfresh' : ∀ i ∈ p.images,
        i.id ≠ (⟨newId, d.image_url, d.alt_text,
          if p.images.isEmpty then true else d.is_primary, d.order, now⟩ :
            ProductImage).id :=
      fun i hi => hfresh i hi
    rw [saveImage_fresh p.images _ hfresh']
    simp only [List.isEmpty_eq_true, hemp, if_false, ite_false]
    have hys : p.images ≠ [] := hemp
    have hcount := hinv.2 hys
    cases hdp : d.is_primary
    · simp only [Bool.false_eq_true, if_false, ite_false]
      constructor
      · simp only [List.map_append, List.map_cons, List.map_nil]
        rw [List.nodup_append]
        refine ⟨hnd, List.nodup_singleton _, ?_⟩
        intro a ha
        simp only [List.mem_singleton]
        intro hb
        obtain ⟨i, hi, hieq⟩ := List.mem_map.mp ha
        exact hfresh i hi (by rw [hieq, hb])
      · constructor
        · rw [primaryCount]
          simp only [List.countP_append]
          rw [show (p.images.countP (·.is_primary)) = 1 from hcount]
          simp [List.countP_cons]
        · intro _
          rw [primaryCount]
          simp only [List.countP_append]
          rw [show (p.images.countP (·.is_primary)) = 1 from hcount]
          simp [List.countP_cons]
    · simp only [if_true, ite_true]
      constructor
      · simp only [List.map_append, List.map_cons, List.map_nil]
        rw [List.nodup_append, demoteIfPrim_ids]
        refine ⟨hnd, List.nodup_singleton _, ?_⟩
        intro a ha
        simp only [List.mem_singleton]
        intro hb
        obtain ⟨i, hi, hieq⟩ := List.mem_map.mp ha
        exact hfresh i hi (by rw [hieq, hb])
      · constructor
        · rw [primaryCount]
          simp only [List.countP_append, demoteIfPrim_countP]
          simp [List.countP_cons]
        · intro _
          rw [primaryCount]
          simp only [List.countP_append, demoteIfPrim_countP]
          simp [List.countP_cons]

/-- The delete-image endpoint preserves pk distinctness and the
primary-image invariant. -/
theorem delete_image_inv (c : User) (p : Product) (image_pk : Nat)
    (hnd : (p.images.map (·.id)).Nodup) (hinv : imgInvariant p) :
    (((afterOp (delete_product_image c p image_pk) p).images.map (·.id)).Nodup)
    ∧ imgInvariant (afterOp (delete_product_image c p image_pk) p) := by
  unfold delete_product_image
  split
  · exact ⟨hnd, hinv⟩
  split
  · exact ⟨hnd, hinv⟩
  cases hfind : p.images.find? (fun i => i.id == image_pk)
  · simp only [hfind, afterOp]
    exact ⟨hnd, hinv⟩
  rename_i y
  simp only [hfind]
  have hymem : y ∈ p.images := List.mem_of_find?_eq_some hfind
  have hnd_rem : ((p.images.filter fun i => i.id != image_pk).map (·.id)).Nodup :=
    hnd.sublist ((List.filter_sublist _).map _)
  have hsplit := countP_primary_filter_ne p.images image_pk y hnd hfind
  have hys : p.images ≠ [] := by
    intro h
    rw [h] at hymem
    exact absurd hymem (List.not_mem_nil y)
  have hone : p.images.countP (·.is_primary) = 1 := hinv.2 hys
  cases hyp : y.is_primary
  · simp only [hyp, Bool.false_eq_true, if_false, ite_false, afterOp]
    have hrem : (p.images.filter fun i => i.id != image_pk).countP (·.is_primary) = 1 := by
      rw [hyp] at hsplit
      simp only [Bool.false_eq_true, if_false, ite_false] at hsplit
      omega
    exact ⟨hnd_rem, imgInvariant_of_countP_one _ hrem⟩
  · have hrem0 : (p.images.filter fun i => i.id != image_pk).countP (·.is_primary) = 0 := by
      rw [hyp] at hsplit
      simp only [eq_self_iff_true, if_true, ite_true] at hsplit
      omega
    simp only [hyp, eq_self_iff_true, if_true, ite_true]
    cases hh : (orderedImages (p.images.filter fun i => i.id != image_pk)).head?
    · simp only [hh, afterOp]
      have hremnil : (p.images.filter fun i => i.id != image_pk) = [] := by
        have h1 : orderedImages (p.images.filter fun i => i.id != image_pk) = [] :=
          List.head?_eq_none_iff.mp hh
        have h2 := orderedImages_perm (p.images.filter fun i => i.id != image_pk)
        rw [h1] at h2
        exact (h2.symm).eq_nil
      exact ⟨by simp [hremnil], imgInvariant_of_nil _ (by simp [hremnil])⟩
    · rename_i h1
      have h1mem : h1 ∈ p.images.filter fun i => i.id != image_pk :=
        (orderedImages_perm _).mem_iff.mp (List.mem_of_mem_head? hh)
      simp only [hh, afterOp]
      rw [saveImage_promote_eq (p.images.filter fun i => i.id != image_pk)
        { h1 with is_primary := true } rfl ⟨h1, h1mem, rfl⟩]
      have hcnt : ((p.images.filter fun i => i.id != image_pk).map fun i =>
          if i.id == h1.id then { h1 with is_primary := true }
          else if i.is_primary then { i with is_primary := false } else i).countP
            (·.is_primary) = 1 := by
        rw [promote_map_countP (p.images.filter fun i => i.id != image_pk) h1.id
          { h1 with is_primary := true }
          (fun i => if i.is_primary then { i with is_primary := false } else i)
          (fun i => by by_cases hpi : i.is_primary = true <;> simp [hpi]) rfl]
        exact countP_id_eq_one _ h1.id hnd_rem ⟨h1, h1mem, rfl⟩
      refine ⟨?_, imgInvariant_of_countP_one _ hcnt⟩
      rw [promote_map_ids (p.images.filter fun i => i.id != image_pk) h1.id
        { h1 with is_primary := true }
        (fun i => if i.is_primary then { i with is_primary := false } else i)
        (fun i => by by_cases hpi : i.is_primary = true <;> simp [hpi]) rfl]
      exact hnd_rem

/-- The set-primary endpoint preserves pk distinctness and the primary-image
invariant. -/
theorem set_primary_inv (c : User) (p : Product) (image_pk : Nat)
    (hnd : (p.images.map (·.id)).Nodup) (hinv : imgInvariant p) :
    (((afterOp (set_primary_product_image c p image_pk) p).images.map (·.id)).Nodup)
    ∧ imgInvariant (afterOp (set_primary_product_image c p image_pk) p) := by
  unfold set_primary_product_image
  split
  · exact ⟨hnd, hinv⟩
  split
  · exact ⟨hnd, hinv⟩
  cases hfind : p.images.find? (fun i => i.id == image_pk)
  · simp only [hfind, afterOp]
    exact ⟨hnd, hinv⟩
  rename_i y
  simp only [hfind, afterOp]
  have hyid : y.id = image_pk := by simpa using List.find?_some hfind
  have hymem : y ∈ p.images := List.mem_of_find?_eq_some hfind
  rw [set_primary_core_eq p.images image_pk y hfind]
  have hcnt : (p.images.map fun i =>
      if i.id == image_pk then { y with is_primary := true }
      else { i with is_primary := false }).countP (·.is_primary) = 1 := by
    rw [promote_map_countP p.images image_pk { y with is_primary := true }
      (fun i => { i with is_primary := false }) (fun i => rfl) rfl]
    exact countP_id_eq_one p.images image_pk hnd ⟨y, hymem, hyid⟩
  refine ⟨?_, imgInvariant_of_countP_one _ hcnt⟩
  rw [promote_map_ids p.images image_pk { y with is_primary := true }
    (fun i => { i with is_primary := false }) (fun i => rfl) hyid]
  exact hnd

/-- Every product reachable through the image endpoints has distinct image
pks and satisfies the primary-image invariant. -/
theorem img_reachable_inv (p : Product) (h : ImgReachable p) :
    ((p.images.map (·.id)).Nodup) ∧ imgInvariant p := by
  induction h with
  | created q hq =>
    exact ⟨by simp [hq], imgInvariant_of_nil q hq⟩
  | addStep q c d newId now hq hfresh ih =>
    exact add_image_inv c q d newId now hfresh ih.1 ih.2
  | delStep q c image_pk hq ih =>
    exact delete_image_inv c q image_pk ih.1 ih.2
  | setPrimaryStep q c image_pk hq ih =>
    exact set_primary_inv c q image_pk ih.1 ih.2

/-- C4: after any sequence of image operations starting from a freshly
created product, at most one image is primary, and exactly one as soon as the
product has an image. -/
theorem primary_image_invariant_C4 (p : Product) (h : ImgReachable p) :
    imgInvariant p :=
  (img_reachable_inv p h).2

/-- Witness for C4: the state after adding a first image to an imageless
product. -/
theorem primary_image_invariant_C4_witness :
    imgInvariant (afterOp
      (add_product_image sampleVendor { sampleDraft with images := [] }
        ⟨"img-a", "", false, 0⟩ 1 1)
      { sampleDraft with images := [] }) :=
  primary_image_invariant_C4 _
    (ImgReachable.addStep { sampleDraft with images := [] } sampleVendor
      ⟨"img-a", "", false, 0⟩ 1 1
      (ImgReachable.created _ rfl)
      (by simp))

/-- C5: after any core operation the status is one of the five declared
statuses; every status change follows the transition table — draft→pending
only by submit, pending→active only by approve, pending→rejected only by
reject, rejected→draft only by a successful update — and creation yields
`draft`. -/
theorem status_machine_C5 (cats brands : List Nat) (now : Nat) (p : Product)
    (op : CoreOp) :
    ((applyCoreOp cats brands now p op).status
        ∈ [Status.draft, Status.pending, Status.active, Status.inactive,
           Status.rejected])
    ∧ ((applyCoreOp cats brands now p op).status = p.status
        ∨ (p.status = Status.draft
            ∧ (applyCoreOp cats brands now p op).status = Status.pending
            ∧ ∃ c, op = CoreOp.submitOp c)
        ∨ (p.status = Status.pending
            ∧ (applyCoreOp cats brands now p op).status = Status.active
            ∧ ∃ c, op = CoreOp.approveOp c)
        ∨ (p.status = Status.pending
            ∧ (applyCoreOp cats brands now p op).status = Status.rejected
            ∧ ∃ c r, op = CoreOp.rejectOp c r)
        ∨ (p.status = Status.rejected
            ∧ (applyCoreOp cats brands now p op).status = Status.draft
            ∧ ∃ c b d, op = CoreOp.updateOp c b d))
    ∧ (∀ (caller : User) (d : VendorProductData) (newId now2 : Nat) (q : Product),
        vendor_create_product cats brands caller d newId now2 = .ok q →
          q.status = Status.draft) := by
  refine ⟨?_, ?_, ?_⟩
  · cases hs : (applyCoreOp cats brands now p op).status <;> simp
  · cases op with
    | updateOp c b d =>
      simp only [applyCoreOp]
      cases hres : update_product cats brands now c p b d with
      | error e => exact Or.inl (by simp [afterOp, hres])
      | ok q =>
        simp only [hres, afterOp]
        unfold update_product at hres
        split at hres
        · exact absurd hres (by simp)
        split at hres
        · exact absurd hres (by simp)
        split at hres
        · exact absurd hres (by simp)
        split at hres
        · exact absurd hres (by simp)
        split at hres
        · rename_i h
          injection hres with h2
          refine Or.inr (Or.inr (Or.inr (Or.inr ⟨by simpa using h, ?_, c, b, d, rfl⟩)))
          rw [← h2]
        · injection hres with h2
          exact Or.inl (by rw [← h2]; simp [applyProductData])
    | submitOp c =>
      simp only [applyCoreOp]
      cases hres : submit_product_for_approval c p with
      | error e => exact Or.inl (by simp [afterOp, hres])
      | ok q =>
        simp only [hres, afterOp]
        unfold submit_product_for_approval at hres
        split at hres
        · exact absurd hres (by simp)
        split at hres
        · exact absurd hres (by simp)
        split at hres
        · exact absurd hres (by simp)
        split at hres
        · exact absurd hres (by simp)
        · rename_i hst herr
          injection hres with h2
          refine Or.inr (Or.inl ⟨by simpa using hst, ?_, c, rfl⟩)
          rw [← h2]
    | approveOp c =>
      simp only [applyCoreOp]
      cases hres : admin_approve_product now c p with
      | error e => exact Or.inl (by simp [afterOp, hres])
      | ok q =>
        simp only [hres, afterOp]
        unfold admin_approve_product at hres
        split at hres
        · exact absurd hres (by simp)
        split at hres
        · exact absurd hres (by simp)
        · rename_i hst
          injection hres with h2
          refine Or.inr (Or.inr (Or.inl ⟨by simpa using hst, ?_, c, rfl⟩))
          rw [← h2]
    | rejectOp c r =>
      simp only [applyCoreOp]
      cases hres : admin_reject_product now c p r with
      | error e => exact Or.inl (by simp [afterOp, hres])
      | ok q =>
        simp only [hres, afterOp]
        unfold admin_reject_product at hres
        split at hres
        · exact absurd hres (by simp)
        split at hres
        · exact absurd hres (by simp)
        split at hres
        · exact absurd hres (by simp)
        · rename_i hst hreason
          injection hres with h2
          refine Or.inr (Or.inr (Or.inr (Or.inl ⟨by simpa using hst, ?_, c, r, rfl⟩)))
          rw [← h2]
    | addImageOp c d newId =>
      simp only [applyCoreOp]
      cases hres : add_product_image c p d newId now with
      | error e => exact Or.inl (by simp [afterOp, hres])
      | ok q =>
        simp only [hres, afterOp]
        unfold add_product_image at hres
        split at hres
        · exact absurd hres (by simp)
        split at hres
        · exact absurd hres (by simp)
        · injection hres with h2
          exact Or.inl (by rw [← h2])
    | delImageOp c pk =>
      simp only [applyCoreOp]
      cases hres : delete_product_image c p pk with
      | error e => exact Or.inl (by simp [afterOp, hres])
      | ok q =>
        simp only [hres, afterOp]
        unfold delete_product_image at hres
        split at hres
        · exact absurd hres (by simp)
        split at hres
        · exact absurd hres (by simp)
        split at hres
        · exact absurd hres (by simp)
        split at hres
        · split at hres
          · injection hres with h2
            exact Or.inl (by rw [← h2])
          · injection hres with h2
            exact Or.inl (by rw [← h2])
        · injection hres with h2
          exact Or.inl (by rw [← h2])
    | setPrimaryOp c pk =>
      simp only [applyCoreOp]
      cases hres : set_primary_product_image c p pk with
      | error e => exact Or.inl (by simp [afterOp, hres])
      | ok q =>
        simp only [hres, afterOp]
        unfold set_primary_product_image at hres
        split at hres
        · exact absurd hres (by simp)
        split at hres
        · exact absurd hres (by simp)
        split at hres
        · exact absurd hres (by simp)
        · injection hres with h2
          exact Or.inl (by rw [← h2])
  · intro caller d newId now2 q h
    unfold vendor_create_product at h
    split at h
    · exact absurd h (by simp)
    split at h
    · exact absurd h (by simp)
    · injection h with h2
      rw [← h2]

/-- Witness for C5: a concrete create call lands in `draft`. -/
theorem status_machine_C5_witness :
    ∃ q, vendor_create_product [1] [] sampleVendor
        ⟨some "New", some "desc", some 5, some 2, some 1, none⟩ 11 0 = .ok q
      ∧ q.status = Status.draft := by
  have heq : vendor_create_product [1] [] sampleVendor
      ⟨some "New", some "desc", some 5, some 2, some 1, none⟩ 11 0
      = .ok { id := 11, name := "New", slug := slugify "New", description := "desc",
              price := 5, stock := 2, category := 1, brand := none, seller := 7,
              status := Status.draft, is_featured := false, approved_by := none,
              approved_at := none, rejection_reason := "", views_count := 0,
              sales_count := 0, created_at := 0, updated_at := 0, images := [] } := by
    decide
  exact ⟨_, heq,
    (status_machine_C5 [1] [] 0 sampleDraft (CoreOp.submitOp sampleVendor)).2.2
      sampleVendor _ 11 0 _ heq⟩

end ECommerce
